import Mathlib

set_option maxRecDepth 10000

/-!
Shallow embedding of the client-side technical-analysis routines of the
stock-dashboard single-page application, together with proofs checking the
specification's description of those routines against the code.

Modelling conventions:
* JavaScript numbers are modelled as rationals (`ℚ`); every routine under
  scrutiny performs only field arithmetic, so no rounding is involved.
* `Math.sqrt` and `Math.log` are irrational-valued; they are modelled by an
  abstract function parameter (`sqrtFn`, `logFn`), the same parameter being
  used on the code side and on the specification side of each equation.
* `NaN`, `null` and `undefined` array reads are modelled by `none : Option ℚ`;
  arithmetic on such values propagates `none`, mirroring NaN propagation.
  A strict equality test `x === 0` on a possibly-NaN value is `x = some 0`.
* All periods occurring in the repository are positive (9, 12, 14, 20, 26, 50);
  loop bounds of the form `i < period - 1` are modelled over `ℤ` so that the
  embedding stays faithful even for `period = 0`.
-/

namespace StockDashboard

/-- JavaScript `x || d` on numbers: yields the fallback `d` exactly when `x` is `0`. -/
def jsOr (x d : ℚ) : ℚ := if x = 0 then d else x

/-! ## TechnicalIndicators.tsx -/

namespace TI

/-- Seed of the EMA loop in `calculateEMA` (TechnicalIndicators.tsx): the sum of the
first `Math.min(period, prices.length)` prices divided by that same count. -/
def initialEMA (prices : List ℚ) (period : ℕ) : ℚ :=
  (prices.take period).sum / ((min period prices.length : ℕ) : ℚ)

/-- The smoothing constant `2 / (period + 1)` of `calculateEMA`. -/
def multiplier (period : ℕ) : ℚ := 2 / ((period : ℚ) + 1)

/-- Cell `i` of the array built by the loop of `calculateEMA`
(TechnicalIndicators.tsx, lines 48-70): `NaN` below `period - 1`, the seed at
`period - 1`, and otherwise `prices[i] * multiplier + ema[i-1] * (1 - multiplier)`.
The read of `ema[-1]` that JavaScript would perform when `period = 0` is `none`. -/
def emaAt (prices : List ℚ) (period : ℕ) : ℕ → Option ℚ
  | 0 =>
    if (0 : ℤ) < (period : ℤ) - 1 then none
    else if (0 : ℤ) = (period : ℤ) - 1 then some (initialEMA prices period)
    else none
  | i + 1 =>
    if ((i : ℤ) + 1) < (period : ℤ) - 1 then none
    else if ((i : ℤ) + 1) = (period : ℤ) - 1 then some (initialEMA prices period)
    else (emaAt prices period i).map fun prev =>
      prices.getD (i + 1) 0 * multiplier period + prev * (1 - multiplier period)

/-- `calculateEMA` of TechnicalIndicators.tsx: one output cell per input price. -/
def calculateEMA (prices : List ℚ) (period : ℕ) : List (Option ℚ) :=
  (List.range prices.length).map (emaAt prices period)

/-- `calculateSMA` of TechnicalIndicators.tsx (lines 35-46): `NaN` below index
`period - 1`, and otherwise the mean of `prices.slice(i - period + 1, i + 1)`. -/
def calculateSMA (prices : List ℚ) (period : ℕ) : List (Option ℚ) :=
  (List.range prices.length).map fun (i : ℕ) =>
    if (i : ℤ) < (period : ℤ) - 1 then none
    else some (((prices.drop (i + 1 - period)).take period).sum / (period : ℚ))

/-- The `gains` array of `calculateRSI`: `change > 0 ? change : 0` for each
consecutive price change `change = prices[i] - prices[i-1]`. -/
def gains (prices : List ℚ) : List ℚ :=
  List.zipWith (fun prev cur => if cur - prev > 0 then cur - prev else 0) prices prices.tail

/-- The `losses` array of `calculateRSI`: `change < 0 ? Math.abs(change) : 0`. -/
def losses (prices : List ℚ) : List ℚ :=
  List.zipWith (fun prev cur => if cur - prev < 0 then -(cur - prev) else 0) prices prices.tail

/-- `calculateRSI` of TechnicalIndicators.tsx (lines 72-105): pushes `NaN` for
`i < period`, and otherwise reads `avgGains[i - period]` and `avgLosses[i - period]`
(the EMAs of the gain and loss arrays), pushing `100` when the average loss is
strictly equal to `0` and `100 - 100/(1 + rs)` otherwise. -/
def calculateRSI (prices : List ℚ) (period : ℕ) : List (Option ℚ) :=
  let avgGains := calculateEMA (gains prices) period
  let avgLosses := calculateEMA (losses prices) period
  (List.range prices.length).map fun (i : ℕ) =>
    if i < period then none
    else
      let avgGain := avgGains.getD (i - period) none
      let avgLoss := avgLosses.getD (i - period) none
      if avgLoss = some 0 then some 100
      else avgGain.bind fun g => avgLoss.map fun l => 100 - 100 / (1 + g / l)

/-- `calculateMACD` of TechnicalIndicators.tsx (lines 107-123): the MACD line is
`ema12[i] - ema26[i]` (`NaN` when either is `NaN`); the signal line is the 9-period
EMA of the non-`NaN` MACD entries, left-padded with `NaN` back to the MACD length. -/
def calculateMACD (prices : List ℚ) : List (Option ℚ) × List (Option ℚ) :=
  let ema12 := calculateEMA prices 12
  let ema26 := calculateEMA prices 26
  let macd := (List.range prices.length).map fun (i : ℕ) =>
    (ema12.getD i none).bind fun a => (ema26.getD i none).map fun b => a - b
  let validMacd := macd.filterMap id
  let signal := calculateEMA validMacd 9
  (macd, List.replicate (macd.length - signal.length) none ++ signal)

/-- Result record of `calculateBollingerBands`. -/
structure BollingerBands where
  upper : List (Option ℚ)
  lower : List (Option ℚ)
  middle : List (Option ℚ)
  deriving DecidableEq

/-- `calculateBollingerBands` of TechnicalIndicators.tsx (lines 125-146): middle
band is the `period`-SMA; above index `period - 1` the upper and lower bands are
`mean ± sqrt(variance) * stdDev`, where `variance` sums the squared deviations of
the window `prices.slice(i - period + 1, i + 1)` from `sma[i]` and divides by
`period`. -/
def calculateBollingerBands (sqrtFn : ℚ → ℚ) (prices : List ℚ) (period : ℕ)
    (stdDev : ℚ) : BollingerBands :=
  let sma := calculateSMA prices period
  let upper := (List.range prices.length).map fun (i : ℕ) =>
    if (i : ℤ) < (period : ℤ) - 1 then none
    else (sma.getD i none).map fun mean =>
      let slice := (prices.drop (i + 1 - period)).take period
      let variance := slice.foldl (fun s price => s + (price - mean) ^ 2) 0 / (period : ℚ)
      mean + sqrtFn variance * stdDev
  let lower := (List.range prices.length).map fun (i : ℕ) =>
    if (i : ℤ) < (period : ℤ) - 1 then none
    else (sma.getD i none).map fun mean =>
      let slice := (prices.drop (i + 1 - period)).take period
      let variance := slice.foldl (fun s price => s + (price - mean) ^ 2) 0 / (period : ℚ)
      mean - sqrtFn variance * stdDev
  { upper := upper, lower := lower, middle := sma }

end TI

/-! ## App.tsx -/

namespace App

/-- One iteration of the loop of `calculateRSI` in App.tsx (lines 66-95), acting on
the state `(gains, losses, rsi)` at loop index `i` (the loop runs `i = 1 .. len-1`).
For `i < period` the change is accumulated and `null` is pushed; at `i = period` the
seed RSI is pushed from `gains/period` and `losses/period || 1`; afterwards Wilder
smoothing `(prev * (period-1) + new) / period` is applied and
`rs = gains / (losses || 1)`. -/
def rsiStep (closes : List ℚ) (period : ℕ) (st : ℚ × ℚ × List (Option ℚ)) (i : ℕ) :
    ℚ × ℚ × List (Option ℚ) :=
  let gains := st.1
  let losses := st.2.1
  let rsi := st.2.2
  let diff := closes.getD i 0 - closes.getD (i - 1) 0
  if i < period then
    (if diff > 0 then gains + diff else gains,
     if diff > 0 then losses else losses - diff,
     rsi ++ [none])
  else if i = period then
    let gains := if diff > 0 then gains + diff else gains
    let losses := if diff > 0 then losses else losses - diff
    let avgGain := gains / (period : ℚ)
    let avgLoss := jsOr (losses / (period : ℚ)) 1
    let rs := avgGain / avgLoss
    (gains, losses, rsi ++ [some (100 - 100 / (1 + rs))])
  else
    let gain := if diff > 0 then diff else 0
    let loss := if diff < 0 then -diff else 0
    let gains := (gains * ((period : ℚ) - 1) + gain) / (period : ℚ)
    let losses := (losses * ((period : ℚ) - 1) + loss) / (period : ℚ)
    let rs := gains / jsOr losses 1
    (gains, losses, rsi ++ [some (100 - 100 / (1 + rs))])

/-- `calculateRSI` of App.tsx (lines 66-95): folds `rsiStep` over `i = 1 .. len-1`
from the state `(0, 0, [])` and returns the accumulated `rsi` array (whose length is
`len - 1`; entry `j` corresponds to loop index `i = j + 1`). -/
def calculateRSI (closes : List ℚ) (period : ℕ) : List (Option ℚ) :=
  ((List.range' 1 (closes.length - 1)).foldl (rsiStep closes period) (0, 0, [])).2.2

end App

/-! ## AIInsights.tsx -/

namespace AI

/-- `calculateEMA` of AIInsights.tsx (lines 32-45): when `data.length < period` the
input array itself is returned; otherwise the returned array starts with the mean of
the first `period` entries and then applies the EMA recurrence once per remaining
entry (so its length is `data.length - period + 1`). -/
def calculateEMA (data : List ℚ) (period : ℕ) : List ℚ :=
  if data.length < period then data
  else
    let multiplier : ℚ := 2 / ((period : ℚ) + 1)
    let ema : ℚ := (data.take period).sum / (period : ℚ)
    (data.drop period).foldl
      (fun emaValues x => emaValues ++ [x * multiplier + (emaValues.getLast?.getD ema) * (1 - multiplier)])
      [ema]

/-- The log-return array of `calculateVolatility` in AIInsights.tsx:
`Math.log(close[i] / close[i-1])` for consecutive closes, with `Math.log` abstract. -/
def logReturns (logFn : ℚ → ℚ) (closes : List ℚ) : List ℚ :=
  List.zipWith (fun prev cur => logFn (cur / prev)) closes closes.tail

/-- The `mean` used by `calculateVolatility` in AIInsights.tsx (lines 48-70): the
last entry of `calculateEMA(returns, 20)`. In JavaScript an empty EMA array would
read `undefined` (NaN); that case is unreachable because `calculateVolatility`
returns `0` first whenever `data.length < 2`, so the default `0` here is inert. -/
def volatilityMean (logFn : ℚ → ℚ) (closes : List ℚ) : ℚ :=
  (calculateEMA (logReturns logFn closes) 20).getLast?.getD 0

/-- `calculateVolatility` of AIInsights.tsx (lines 48-70): `0` for fewer than two
closes; otherwise an exponentially smoothed variance of the log returns about
`volatilityMean` with `alpha = 0.1`, returned as `sqrt(variance) * sqrt(252) * 100`. -/
def calculateVolatility (logFn sqrtFn : ℚ → ℚ) (closes : List ℚ) : ℚ :=
  if closes.length < 2 then 0
  else
    let returns := logReturns logFn closes
    let mean := volatilityMean logFn closes
    let variance := returns.foldl
      (fun variance r => (1 / 10) * ((r - mean) * (r - mean)) + (1 - 1 / 10) * variance) 0
    sqrtFn variance * sqrtFn 252 * 100

/-- `calculateRSI` of AIInsights.tsx (lines 84-108): returns the neutral value `50`
for fewer than `period + 1` closes; otherwise builds the gain/loss arrays of the
consecutive changes, takes the last entries of their `period`-EMAs, returns `100`
when the last average loss is `0`, else `100 - 100/(1 + rs)`. -/
def calculateRSI (closes : List ℚ) (period : ℕ) : ℚ :=
  if closes.length < period + 1 then 50
  else
    let gains := TI.gains closes
    let losses := TI.losses closes
    let avgGain := calculateEMA gains period
    let avgLoss := calculateEMA losses period
    let currentAvgGain := avgGain.getLast?.getD 0
    let currentAvgLoss := avgLoss.getLast?.getD 0
    if currentAvgLoss = 0 then 100
    else 100 - 100 / (1 + currentAvgGain / currentAvgLoss)

end AI

/-! ## RiskAnalysis.tsx -/

namespace Risk

/-- `calculateReturns` of RiskAnalysis.tsx (lines 37-44): the simple daily returns
`(close[i] - close[i-1]) / close[i-1]`. -/
def calculateReturns (closes : List ℚ) : List ℚ :=
  List.zipWith (fun prev cur => (cur - prev) / prev) closes closes.tail

/-- `calculateVolatility` of RiskAnalysis.tsx (lines 46-51): `0` for fewer than two
returns; otherwise `sqrt(variance * 252) * 100` where `variance` is the sample
variance of the returns with denominator `n - 1`. -/
def calculateVolatility (sqrtFn : ℚ → ℚ) (returns : List ℚ) : ℚ :=
  if returns.length < 2 then 0
  else
    let mean := returns.sum / (returns.length : ℚ)
    let variance := (returns.foldl (fun s r => s + (r - mean) ^ 2) 0) / ((returns.length : ℚ) - 1)
    sqrtFn (variance * 252) * 100

/-- `calculateVaR` of RiskAnalysis.tsx (lines 53-60): `0` on an empty return list;
otherwise sorts ascending, takes `index = Math.floor((1 - confidence) * n)` clamped
into `[0, n-1]`, and returns `Math.abs(sorted[index]) * 100`. -/
def calculateVaR (returns : List ℚ) (confidence : ℚ) : ℚ :=
  if returns.length = 0 then 0
  else
    let sorted := returns.mergeSort (fun a b => a ≤ b)
    let index0 : ℤ := ⌊(1 - confidence) * (returns.length : ℚ)⌋
    let index : ℕ :=
      if index0 < 0 then 0
      else if (returns.length : ℤ) ≤ index0 then returns.length - 1
      else index0.toNat
    |sorted.getD index 0| * 100

/-- One iteration of the loop of `calculateMaxDrawdown` in RiskAnalysis.tsx, acting
on the state `(maxDrawdown, peak)`: the peak is raised to the current close when that
close exceeds it, and the drawdown `(peak - close) / peak` replaces the running
maximum when larger. -/
def ddStep (st : ℚ × ℚ) (c : ℚ) : ℚ × ℚ :=
  let maxDrawdown := st.1
  let peak := if c > st.2 then c else st.2
  let drawdown := (peak - c) / peak
  (if drawdown > maxDrawdown then drawdown else maxDrawdown, peak)

/-- `calculateMaxDrawdown` of RiskAnalysis.tsx (lines 71-88): `0` for fewer than two
closes; otherwise folds `ddStep` over the closes after the first, starting from
`maxDrawdown = 0` and `peak = closes[0]`, and scales by `100`. -/
def calculateMaxDrawdown (closes : List ℚ) : ℚ :=
  if closes.length < 2 then 0
  else
    match closes with
    | [] => 0
    | c0 :: rest => (rest.foldl ddStep (0, c0)).1 * 100

end Risk

/-! ## Specification-side definitions

Formalizations written from the words of the specification claims, to be compared
with the code-side embeddings above. -/

namespace Spec

/-- Textbook exponential moving average of `xs` with period `p`, as described by the
specification: the arithmetic mean of the first `p` entries at index `p - 1`, and
`ema[i] = xs[i] * k + ema[i-1] * (1 - k)` with `k = 2 / (p + 1)` afterwards.
Indices below `p - 1` are given the seed value as junk; the claims never read them. -/
def specEMAAt (xs : List ℚ) (p : ℕ) : ℕ → ℚ
  | 0 => (xs.take p).sum / (p : ℚ)
  | i + 1 =>
    if i + 1 ≤ p - 1 then (xs.take p).sum / (p : ℚ)
    else xs.getD (i + 1) 0 * (2 / ((p : ℚ) + 1)) + specEMAAt xs p i * (1 - 2 / ((p : ℚ) + 1))

/-- The RSI formula `100 - 100 / (1 + g / l)`, with the value `100` when the average
loss `l` is `0`. -/
def rsiFormula (g l : ℚ) : ℚ := if l = 0 then 100 else 100 - 100 / (1 + g / l)

/-- The textbook RSI value claimed for index `i`: the ratio of the `p`-period
exponential averages of gains and losses taken over the price changes up to and
including index `i` (change `j` of the change arrays corresponds to price index
`j + 1`, so the averages are read at change index `i - 1`). -/
def rsiTextbook (prices : List ℚ) (p i : ℕ) : ℚ :=
  rsiFormula (specEMAAt (TI.gains prices) p (i - 1)) (specEMAAt (TI.losses prices) p (i - 1))

/-- Arithmetic mean of the `p` prices ending at index `i`. -/
def windowMean (prices : List ℚ) (p i : ℕ) : ℚ :=
  ((List.range p).map fun j => prices.getD (i + 1 - p + j) 0).sum / (p : ℚ)

/-- Variance (denominator `p`) of the `p` prices ending at index `i`, about `mean`. -/
def windowVariance (prices : List ℚ) (p i : ℕ) (mean : ℚ) : ℚ :=
  ((List.range p).map fun j => (prices.getD (i + 1 - p + j) 0 - mean) ^ 2).sum / (p : ℚ)

/-- Sample variance of a list of returns, with denominator `n - 1`. -/
def sampleVariance (returns : List ℚ) : ℚ :=
  ((returns.map fun r => (r - returns.sum / (returns.length : ℚ)) ^ 2).sum) /
    ((returns.length : ℚ) - 1)

/-- The simple daily returns `(close[i] - close[i-1]) / close[i-1]`, written by index. -/
def simpleReturns (closes : List ℚ) : List ℚ :=
  (List.range (closes.length - 1)).map fun i =>
    (closes.getD (i + 1) 0 - closes.getD i 0) / closes.getD i 0

/-- The value the VaR claim asserts: `100` times the negation of the element at index
`Math.floor((1 - c) * n)` of the ascending-sorted returns. -/
def claimedVaR (returns : List ℚ) (confidence : ℚ) : ℚ :=
  100 * (-((returns.mergeSort fun a b => a ≤ b).getD
      (⌊(1 - confidence) * (returns.length : ℚ)⌋).toNat 0))

/-- Running peak of a close series: `peaks[i]` is the maximum close up to index `i`. -/
def peaks (closes : List ℚ) : List ℚ :=
  match closes with
  | [] => []
  | c :: rest => rest.scanl max c

/-- Drawdown series `(peak_i - close_i) / peak_i`. -/
def drawdowns (closes : List ℚ) : List ℚ :=
  List.zipWith (fun peak c => (peak - c) / peak) (peaks closes) closes

/-- Maximum of a list of rationals (`0` on the empty list, which the claims exclude). -/
def maxOfList (l : List ℚ) : ℚ :=
  match l with
  | [] => 0
  | x :: xs => xs.foldl max x

/-- The claimed maximum drawdown in percent: `100` times the maximum drawdown. -/
def specMaxDrawdown (closes : List ℚ) : ℚ := 100 * maxOfList (drawdowns closes)

end Spec

/-- Helper for the drawdown proof: the drawdown values produced while folding over a
close list with current running peak `pk`. -/
def ddsFrom (pk : ℚ) : List ℚ → List ℚ
  | [] => []
  | c :: l => ((max pk c - c) / max pk c) :: ddsFrom (max pk c) l

/-- A 29-entry price series on which the three RSI implementations disagree. -/
def c1Prices : List ℚ :=
  [100, 102, 99, 105, 101, 108, 103, 110, 104, 112, 105, 115, 106, 118, 107,
   120, 108, 123, 109, 126, 110, 130, 111, 135, 112, 140, 113, 146, 114]

/-- A 15-entry alternating price series used against the textbook RSI claim. -/
def c2Prices : List ℚ := [10, 11, 10, 11, 10, 11, 10, 11, 10, 11, 10, 11, 10, 11, 10]

/-! ## Helper lemmas -/

theorem getD_map_range {α : Type} (f : ℕ → α) {n i : ℕ} (h : i < n) (d : α) :
    ((List.range n).map f).getD i d = f i := by
  simp [List.getD_eq_getElem?_getD, List.getElem?_map, List.getElem?_range, h]

theorem length_gains (prices : List ℚ) : (TI.gains prices).length = prices.length - 1 := by
  simp [TI.gains]

theorem length_losses (prices : List ℚ) : (TI.losses prices).length = prices.length - 1 := by
  simp [TI.losses]

theorem length_calculateEMA (prices : List ℚ) (period : ℕ) :
    (TI.calculateEMA prices period).length = prices.length := by
  simp [TI.calculateEMA]

theorem length_macd_fst (prices : List ℚ) :
    (TI.calculateMACD prices).1.length = prices.length := by
  simp [TI.calculateMACD]

theorem length_macd_snd (prices : List ℚ) :
    (TI.calculateMACD prices).2.length = prices.length := by
  have h := List.length_filterMap_le (@id (Option ℚ)) (TI.calculateMACD prices).1
  have h1 := length_macd_fst prices
  simp only [TI.calculateMACD] at h h1 ⊢
  simp only [List.length_append, List.length_replicate, length_calculateEMA,
    List.length_map, List.length_range] at h h1 ⊢
  omega

/-- The first claim-facing theorem below needs nothing more than these lengths. -/
theorem length_calculateSMA (prices : List ℚ) (period : ℕ) :
    (TI.calculateSMA prices period).length = prices.length := by
  simp [TI.calculateSMA]

theorem length_calculateRSI (prices : List ℚ) (period : ℕ) :
    (TI.calculateRSI prices period).length = prices.length := by
  simp [TI.calculateRSI]

/-! ## Claim C9 -/

/-- C9: every indicator function in TechnicalIndicators.tsx preserves the length of
its input: `calculateSMA`, `calculateEMA` and `calculateRSI` return lists of exactly
the input's length, and the component lists of `calculateMACD` (macd, signal) and
`calculateBollingerBands` (upper, lower, middle) are each of exactly the input's
length, so the per-index merge performed by `calculateIndicators` is index-aligned. -/
theorem C9_indicator_lengths (sqrtFn : ℚ → ℚ) (prices : List ℚ) (period : ℕ)
    (stdDev : ℚ) :
    (TI.calculateSMA prices period).length = prices.length ∧
    (TI.calculateEMA prices period).length = prices.length ∧
    (TI.calculateRSI prices period).length = prices.length ∧
    (TI.calculateMACD prices).1.length = prices.length ∧
    (TI.calculateMACD prices).2.length = prices.length ∧
    (TI.calculateBollingerBands sqrtFn prices period stdDev).upper.length = prices.length ∧
    (TI.calculateBollingerBands sqrtFn prices period stdDev).lower.length = prices.length ∧
    (TI.calculateBollingerBands sqrtFn prices period stdDev).middle.length = prices.length :=
  ⟨length_calculateSMA prices period, length_calculateEMA prices period,
   length_calculateRSI prices period, length_macd_fst prices, length_macd_snd prices,
   by simp [TI.calculateBollingerBands], by simp [TI.calculateBollingerBands],
   by simp [TI.calculateBollingerBands, TI.calculateSMA]⟩

/-! ## Claim C1 -/

/-- C1 counterexample: on the concrete 29-price series `c1Prices` with the default
period 14, both the App.tsx RSI and the TechnicalIndicators.tsx RSI yield a number at
index 27, but the two numbers differ, and the single AIInsights.tsx RSI value differs
from both of those last numeric values; so the claim that the three components
compute equal RSI values is false at this input. -/
theorem C1_counterexample :
    (App.calculateRSI c1Prices 14).getD 27 none ≠ none ∧
    (TI.calculateRSI c1Prices 14).getD 27 none ≠ none ∧
    (App.calculateRSI c1Prices 14).getD 27 none ≠ (TI.calculateRSI c1Prices 14).getD 27 none ∧
    some (AI.calculateRSI c1Prices 14) ≠ (TI.calculateRSI c1Prices 14).getD 27 none ∧
    some (AI.calculateRSI c1Prices 14) ≠ (App.calculateRSI c1Prices 14).getD 27 none := by
  with_unfolding_all decide

/-- C1 amended: the three RSI routines share the gain/loss decomposition and the
final `100 - 100/(1 + RS)` formula but are numerically inequivalent: App.tsx uses
Wilder smoothing while TechnicalIndicators.tsx uses a shifted EMA, so there is a
price series and an index at which both yield a number yet the values differ, and at
which AIInsights.tsx's single RSI value differs from both. -/
theorem C1_rsi_implementations_differ :
    ∃ (prices : List ℚ) (i : ℕ),
      (App.calculateRSI prices 14).getD i none ≠ none ∧
      (TI.calculateRSI prices 14).getD i none ≠ none ∧
      (App.calculateRSI prices 14).getD i none ≠ (TI.calculateRSI prices 14).getD i none ∧
      some (AI.calculateRSI prices 14) ≠ (TI.calculateRSI prices 14).getD i none ∧
      some (AI.calculateRSI prices 14) ≠ (App.calculateRSI prices 14).getD i none :=
  ⟨c1Prices, 27, by with_unfolding_all decide⟩

/-! ## Claim C8 -/

theorem ifMax (a b : ℚ) : (if b > a then b else a) = max a b := by
  rcases le_or_lt b a with h | h
  · simp [not_lt.mpr h, max_eq_left h]
  · simp [h, max_eq_right h.le]

theorem ddStep_fold (l : List ℚ) : ∀ m pk : ℚ,
    (l.foldl Risk.ddStep (m, pk)).1 = (ddsFrom pk l).foldl max m := by
  induction l with
  | nil => intro m pk; rfl
  | cons c l ih =>
    intro m pk
    rw [List.foldl_cons, ddsFrom, List.foldl_cons, ← ih]
    have hstep : Risk.ddStep (m, pk) c = (max m ((max pk c - c) / max pk c), max pk c) := by
      simp only [Risk.ddStep, ifMax]
    rw [hstep]

theorem ddsFrom_eq_zipWith (l : List ℚ) : ∀ pk : ℚ,
    List.zipWith (fun peak c => (peak - c) / peak) ((List.scanl max pk l).tail) l =
      ddsFrom pk l := by
  induction l with
  | nil => intro pk; rfl
  | cons c l ih =>
    intro pk
    rw [List.scanl_cons]
    simp only [List.cons_append, List.nil_append, List.tail_cons]
    cases l with
    | nil => simp [ddsFrom, List.scanl]
    | cons b l' =>
      rw [List.scanl_cons]
      simp only [List.cons_append, List.nil_append, List.zipWith_cons_cons]
      have h := ih (max pk c)
      rw [List.scanl_cons] at h
      simp only [List.cons_append, List.nil_append, List.tail_cons] at h
      rw [ddsFrom, h]

/-- C8: for every series of at least 2 closes, `calculateMaxDrawdown` in the
RiskAnalysis component returns the textbook maximum drawdown in percent — 100 times
the maximum over all indices `i` of `(peak_i - close_i) / peak_i` with `peak_i` the
running maximum of the closes up to and including `i` — and returns 0 for fewer than
2 points. -/
theorem C8_max_drawdown :
    (∀ closes : List ℚ, 2 ≤ closes.length →
      Risk.calculateMaxDrawdown closes = Spec.specMaxDrawdown closes) ∧
    (∀ closes : List ℚ, closes.length < 2 → Risk.calculateMaxDrawdown closes = 0) := by
  constructor
  · intro closes hlen
    match closes with
    | c0 :: b :: l' =>
      simp only [Risk.calculateMaxDrawdown, if_neg (by simp : ¬((c0 :: b :: l' : List ℚ).length < 2))]
      rw [ddStep_fold]
      rw [Spec.specMaxDrawdown, Spec.drawdowns, Spec.peaks, List.scanl_cons]
      simp only [List.cons_append, List.nil_append, List.zipWith_cons_cons]
      have h := ddsFrom_eq_zipWith (b :: l') c0
      rw [List.scanl_cons] at h
      simp only [List.cons_append, List.nil_append, List.tail_cons] at h
      rw [h, sub_self, zero_div, Spec.maxOfList, mul_comm]
  · intro closes hlen
    simp only [Risk.calculateMaxDrawdown, if_pos hlen]

/-- Witness for C8 at a concrete input: the series `[2, 1]` has maximum drawdown 50%. -/
theorem C8_max_drawdown_witness : Risk.calculateMaxDrawdown [2, 1] = 50 := by
  have h := C8_max_drawdown.1 [2, 1] (by norm_num)
  rw [h]; with_unfolding_all decide

/-! ## More helper lemmas -/

theorem foldl_add_map (f : ℚ → ℚ) (l : List ℚ) : ∀ a : ℚ,
    l.foldl (fun s x => s + f x) a = a + (l.map f).sum := by
  induction l with
  | nil => intro a; simp
  | cons x l ih => intro a; simp [List.foldl_cons, ih, add_assoc]

theorem zipWith_tail_eq_map_range (f : ℚ → ℚ → ℚ) (l : List ℚ) :
    List.zipWith f l l.tail =
      (List.range (l.length - 1)).map fun i => f (l.getD i 0) (l.getD (i + 1) 0) := by
  apply List.ext_getElem
  · simp [List.length_zipWith]
  · intro i h1 h2
    have hi : i < l.length - 1 := by
      simpa [List.length_zipWith] using h1
    rw [List.getElem_zipWith, List.getElem_tail, List.getElem_map, List.getElem_range]
    rw [List.getD_eq_getElem l 0 (by omega), List.getD_eq_getElem l 0 (by omega)]

theorem drop_take_eq_map_range (l : List ℚ) (s n : ℕ) (h : s + n ≤ l.length) :
    (l.drop s).take n = (List.range n).map fun j => l.getD (s + j) 0 := by
  apply List.ext_getElem
  · simp; omega
  · intro j h1 h2
    have hj : j < n := by simpa using h2
    rw [List.getElem_take, List.getElem_drop, List.getElem_map, List.getElem_range]
    rw [List.getD_eq_getElem l 0 (by omega)]

/-! ## Claim C6 -/

/-- C6: for at least 2 daily returns, `calculateVolatility` in the RiskAnalysis
component returns `sqrt(sampleVariance * 252) * 100` — annualized volatility in
percent, sample variance with denominator `n - 1` — and `0` for fewer than 2
returns; and `calculateReturns` produces the simple daily returns
`(close[i] - close[i-1]) / close[i-1]`. -/
theorem C6_volatility :
    (∀ (sqrtFn : ℚ → ℚ) (returns : List ℚ), 2 ≤ returns.length →
      Risk.calculateVolatility sqrtFn returns =
        sqrtFn (Spec.sampleVariance returns * 252) * 100) ∧
    (∀ (sqrtFn : ℚ → ℚ) (returns : List ℚ), returns.length < 2 →
      Risk.calculateVolatility sqrtFn returns = 0) ∧
    (∀ closes : List ℚ, Risk.calculateReturns closes = Spec.simpleReturns closes) := by
  refine ⟨?_, ?_, ?_⟩
  · intro sqrtFn returns hlen
    simp only [Risk.calculateVolatility]
    rw [if_neg (by omega)]
    have hvar : (returns.foldl
        (fun s r => s + (r - returns.sum / (returns.length : ℚ)) ^ 2) 0) /
          ((returns.length : ℚ) - 1) = Spec.sampleVariance returns := by
      rw [foldl_add_map (fun r => (r - returns.sum / (returns.length : ℚ)) ^ 2), zero_add]
      rfl
    rw [hvar]
  · intro sqrtFn returns hlen
    simp only [Risk.calculateVolatility]
    rw [if_pos hlen]
  · intro closes
    rw [Risk.calculateReturns, zipWith_tail_eq_map_range]
    rfl

/-- Witness for C6 at a concrete input: the return list `[0, 1/10]` has sample
variance `1/200`, so with the identity in place of `Math.sqrt` the result is `126`. -/
theorem C6_volatility_witness : Risk.calculateVolatility id [0, 1 / 10] = 126 := by
  have h := C6_volatility.1 id [0, 1 / 10] (by norm_num)
  rw [h]; with_unfolding_all decide

/-! ## Claim C7 -/

/-- C7 counterexample: on the single positive return `1/100` at confidence `95/100`,
`calculateVaR` returns `1` (the absolute value of the quantile return, times 100),
while the claimed value — 100 times the negation of that quantile return — is `-1`;
so the claim is false at this input. -/
theorem C7_counterexample :
    Risk.calculateVaR [1 / 100] (95 / 100) ≠ Spec.claimedVaR [1 / 100] (95 / 100) := by
  with_unfolding_all decide

/-- C7 amended: for every non-empty return list and confidence strictly between 0
and 1, `calculateVaR` returns 100 times the ABSOLUTE VALUE (not the negation) of the
element at index `floor((1 - c) * n)` of the ascending-sorted returns; the clamping
of that index is inert under these hypotheses. -/
theorem C7_var_absolute (returns : List ℚ) (confidence : ℚ) (hne : returns ≠ [])
    (h0 : 0 < confidence) (h1 : confidence < 1) :
    Risk.calculateVaR returns confidence =
      |(returns.mergeSort fun a b => a ≤ b).getD
        (⌊(1 - confidence) * (returns.length : ℚ)⌋).toNat 0| * 100 := by
  have hn : 0 < returns.length := List.length_pos.mpr hne
  have hge : (0 : ℤ) ≤ ⌊(1 - confidence) * (returns.length : ℚ)⌋ :=
    Int.floor_nonneg.mpr (mul_nonneg (by linarith) (by positivity))
  have hlt : ⌊(1 - confidence) * (returns.length : ℚ)⌋ < (returns.length : ℤ) := by
    rw [Int.floor_lt]
    push_cast
    have hq : (0 : ℚ) < (returns.length : ℚ) := by positivity
    nlinarith
  simp only [Risk.calculateVaR]
  rw [if_neg (by omega), if_neg (by omega), if_neg (by omega)]

/-- Witness for C7 at a concrete input: the single return `-1/10` at confidence
`1/2` yields a VaR of 10 percent. -/
theorem C7_var_absolute_witness : Risk.calculateVaR [-(1 / 10)] (1 / 2) = 10 := by
  have h := C7_var_absolute [-(1 / 10)] (1 / 2) (by simp) (by norm_num) (by norm_num)
  rw [h]; with_unfolding_all decide

/-! ## Claim C10 -/

/-- C10: for every data list strictly shorter than the period, `calculateEMA` in
AIInsights.tsx returns the input list itself unchanged; consequently
`calculateVolatility` there, which calls it with period 20, uses the last raw log
return as the smoothed mean for any close series yielding fewer than 20 returns. -/
theorem C10_short_ema_identity :
    (∀ (data : List ℚ) (period : ℕ), data.length < period →
      AI.calculateEMA data period = data) ∧
    (∀ (logFn : ℚ → ℚ) (closes : List ℚ), 2 ≤ closes.length → closes.length < 21 →
      AI.volatilityMean logFn closes =
        logFn (closes.getD (closes.length - 1) 0 / closes.getD (closes.length - 2) 0)) := by
  constructor
  · intro data period h
    simp only [AI.calculateEMA]
    rw [if_pos h]
  · intro logFn closes h2 h21
    have hlen : (AI.logReturns logFn closes).length = closes.length - 1 := by
      simp [AI.logReturns, List.length_zipWith]
    simp only [AI.volatilityMean, AI.calculateEMA]
    rw [if_pos (by omega)]
    rw [List.getLast?_eq_getElem?, hlen]
    simp only [AI.logReturns]
    rw [zipWith_tail_eq_map_range (fun prev cur => logFn (cur / prev))]
    rw [List.getElem?_map, List.getElem?_range (by omega : closes.length - 1 - 1 < closes.length - 1)]
    simp only [Option.map_some', Option.getD_some]
    have he2 : closes.length - 1 - 1 + 1 = closes.length - 1 := by omega
    have he : closes.length - 1 - 1 = closes.length - 2 := by omega
    rw [he2, he]

/-- Witness for C10 at concrete inputs: a 3-element list is returned unchanged by a
period-5 EMA, and on the two closes `[1, 2]` with the identity in place of
`Math.log` the smoothed mean is the raw last return `2`. -/
theorem C10_short_ema_identity_witness :
    AI.calculateEMA [1, 2, 3] 5 = [1, 2, 3] ∧ AI.volatilityMean id [1, 2] = 2 := by
  constructor
  · exact C10_short_ema_identity.1 [1, 2, 3] 5 (by norm_num)
  · have h := C10_short_ema_identity.2 id [1, 2] (by norm_num) (by norm_num)
    rw [h]; with_unfolding_all decide

/-! ## EMA machinery for claims C2, C3, C4 -/

theorem getD_calculateEMA (xs : List ℚ) (p : ℕ) {i : ℕ} (h : i < xs.length) :
    (TI.calculateEMA xs p).getD i none = TI.emaAt xs p i := by
  rw [TI.calculateEMA]
  exact getD_map_range _ h none

theorem emaAt_none (xs : List ℚ) (p : ℕ) : ∀ i : ℕ, i + 1 < p → TI.emaAt xs p i = none := by
  intro i hi
  cases i with
  | zero =>
    simp only [TI.emaAt]
    rw [if_pos (by omega)]
  | succ i =>
    simp only [TI.emaAt]
    rw [if_pos (by omega)]

theorem specEMAAt_of_le (xs : List ℚ) (p : ℕ) : ∀ i : ℕ, i ≤ p - 1 →
    Spec.specEMAAt xs p i = (xs.take p).sum / (p : ℚ) := by
  intro i hi
  cases i with
  | zero => rfl
  | succ i =>
    simp only [Spec.specEMAAt]
    rw [if_pos (by omega)]

theorem emaAt_eq_spec (xs : List ℚ) (p : ℕ) (hp : 1 ≤ p) (hlen : p ≤ xs.length) :
    ∀ i : ℕ, p - 1 ≤ i → TI.emaAt xs p i = some (Spec.specEMAAt xs p i) := by
  intro i
  induction i with
  | zero =>
    intro h0
    have hp1 : p = 1 := by omega
    subst hp1
    simp only [TI.emaAt]
    rw [if_neg (by omega), if_pos (by omega)]
    rw [TI.initialEMA, specEMAAt_of_le xs 1 0 (by omega)]
    rw [Nat.min_eq_left hlen]
  | succ i ih =>
    intro h
    rcases Nat.lt_or_ge i (p - 1) with hlt | hge
    · simp only [TI.emaAt]
      rw [if_neg (by omega), if_pos (by omega)]
      rw [TI.initialEMA, specEMAAt_of_le xs p (i + 1) (by omega)]
      rw [Nat.min_eq_left hlen]
    · simp only [TI.emaAt]
      rw [if_neg (by omega), if_neg (by omega), ih hge]
      simp only [Option.map_some']
      simp only [Spec.specEMAAt]
      rw [if_neg (by omega), TI.multiplier]

/-! ## Claim C3 -/

/-- C3: for every price list of length at least `p` and period `p ≥ 1`,
`calculateEMA` in TechnicalIndicators.tsx returns a list of the same length that is
`NaN` at every index `i < p - 1`, equals the arithmetic mean of the first `p` prices
at index `p - 1`, and at every index `i ≥ p` satisfies the recurrence
`ema[i] = prices[i] * k + ema[i-1] * (1 - k)` with `k = 2 / (p + 1)`. -/
theorem C3_ema (prices : List ℚ) (p : ℕ) (hp : 1 ≤ p) (hlen : p ≤ prices.length) :
    (TI.calculateEMA prices p).length = prices.length ∧
    (∀ i : ℕ, i + 1 < p → (TI.calculateEMA prices p).getD i none = none) ∧
    (TI.calculateEMA prices p).getD (p - 1) none = some ((prices.take p).sum / (p : ℚ)) ∧
    (∀ i : ℕ, p ≤ i → i < prices.length → ∃ prev : ℚ,
      (TI.calculateEMA prices p).getD (i - 1) none = some prev ∧
      (TI.calculateEMA prices p).getD i none =
        some (prices.getD i 0 * (2 / ((p : ℚ) + 1)) + prev * (1 - 2 / ((p : ℚ) + 1)))) := by
  refine ⟨length_calculateEMA prices p, ?_, ?_, ?_⟩
  · intro i hi
    rcases Nat.lt_or_ge i prices.length with hlt | hge
    · rw [TI.calculateEMA, getD_map_range _ hlt, emaAt_none prices p i hi]
    · apply List.getD_eq_default
      rw [length_calculateEMA]
      omega
  · have hplt : p - 1 < prices.length := by omega
    rw [TI.calculateEMA, getD_map_range _ hplt,
      emaAt_eq_spec prices p hp hlen (p - 1) (le_refl _),
      specEMAAt_of_le prices p (p - 1) (le_refl _)]
  · intro i hpi hilen
    obtain ⟨j, rfl⟩ : ∃ j, i = j + 1 := ⟨i - 1, by omega⟩
    refine ⟨Spec.specEMAAt prices p j, ?_, ?_⟩
    · rw [Nat.add_sub_cancel]
      rw [TI.calculateEMA, getD_map_range _ (by omega : j < prices.length)]
      exact emaAt_eq_spec prices p hp hlen j (by omega)
    · rw [TI.calculateEMA, getD_map_range _ hilen]
      rw [emaAt_eq_spec prices p hp hlen (j + 1) (by omega)]
      simp only [Spec.specEMAAt]
      rw [if_neg (by omega)]

/-- Witness for C3 at a concrete input: the period-1 EMA of `[1, 2]` starts with the
mean of the first single price, `1`. -/
theorem C3_ema_witness :
    (TI.calculateEMA [1, 2] 1).length = 2 ∧ (TI.calculateEMA [1, 2] 1).getD 0 none = some 1 := by
  have h := C3_ema [1, 2] 1 (by norm_num) (by norm_num)
  refine ⟨h.1, ?_⟩
  have h3 := h.2.2.1
  rw [show (1 : ℕ) - 1 = 0 from rfl] at h3
  rw [h3]
  with_unfolding_all decide

/-! ## Claim C2 -/

/-- C2 counterexample: on the 15-entry alternating series `c2Prices` with the
default period 14, the claim asserts that the RSI entry at index 14 is the textbook
value (here `50`, since the 14-change gain and loss averages are both `1/2`), but
`calculateRSI` in TechnicalIndicators.tsx reads the gain/loss EMAs at the shifted
index `i - period = 0`, which is still `NaN`, so the entry is `NaN`; the claim is
false at this input. -/
theorem C2_counterexample :
    (TI.calculateRSI c2Prices 14).getD 14 none ≠ some (Spec.rsiTextbook c2Prices 14 14) := by
  with_unfolding_all decide

/-- C2 amended: for every price list and period `p ≥ 1`, `calculateRSI` in
TechnicalIndicators.tsx returns a list of the input's length whose entries are `NaN`
at every index `i < 2p - 1` (not `i < p`), and at every index `i ≥ 2p - 1` equal to
`100 - 100/(1 + RS)` where `RS` divides the `p`-period exponential averages of the
gains and losses read at the shifted index `i - p` (covering only the price changes
up to index `i - p + 1`), with the value `100` when that shifted average loss is
`0`. -/
theorem C2_rsi_shifted (prices : List ℚ) (p : ℕ) (hp : 1 ≤ p) :
    (TI.calculateRSI prices p).length = prices.length ∧
    (∀ i : ℕ, i < 2 * p - 1 → (TI.calculateRSI prices p).getD i none = none) ∧
    (∀ i : ℕ, 2 * p - 1 ≤ i → i < prices.length →
      (TI.calculateRSI prices p).getD i none =
        some (Spec.rsiFormula (Spec.specEMAAt (TI.gains prices) p (i - p))
          (Spec.specEMAAt (TI.losses prices) p (i - p)))) := by
  refine ⟨length_calculateRSI prices p, ?_, ?_⟩
  · intro i hi
    rcases Nat.lt_or_ge i prices.length with hlt | hge
    · simp only [TI.calculateRSI]
      rw [getD_map_range _ hlt]
      rcases Nat.lt_or_ge i p with hip | hip
      · rw [if_pos hip]
      · rw [if_neg (by omega)]
        have hbg : i - p < (TI.gains prices).length := by
          rw [length_gains]; omega
        have hbl : i - p < (TI.losses prices).length := by
          rw [length_losses]; omega
        rw [getD_calculateEMA (TI.gains prices) p hbg,
          emaAt_none (TI.gains prices) p (i - p) (by omega)]
        rw [getD_calculateEMA (TI.losses prices) p hbl,
          emaAt_none (TI.losses prices) p (i - p) (by omega)]
        rw [if_neg (by simp)]
        simp
    · apply List.getD_eq_default
      rw [length_calculateRSI]
      omega
  · intro i h2p hilen
    simp only [TI.calculateRSI]
    rw [getD_map_range _ hilen]
    rw [if_neg (by omega)]
    have hpg : p ≤ (TI.gains prices).length := by rw [length_gains]; omega
    have hpl : p ≤ (TI.losses prices).length := by rw [length_losses]; omega
    have hbg : i - p < (TI.gains prices).length := by rw [length_gains]; omega
    have hbl : i - p < (TI.losses prices).length := by rw [length_losses]; omega
    rw [getD_calculateEMA (TI.gains prices) p hbg,
      emaAt_eq_spec (TI.gains prices) p hp hpg (i - p) (by omega)]
    rw [getD_calculateEMA (TI.losses prices) p hbl,
      emaAt_eq_spec (TI.losses prices) p hp hpl (i - p) (by omega)]
    by_cases h0 : Spec.specEMAAt (TI.losses prices) p (i - p) = 0
    · rw [if_pos (by rw [h0]), Spec.rsiFormula, if_pos h0]
    · rw [if_neg (by simp [h0])]
      simp only [Option.some_bind, Option.map_some']
      rw [Spec.rsiFormula, if_neg h0]

/-- Witness for C2 at a concrete input: with period 1 on `[1, 2]`, index `1` is past
`2p - 1 = 1`, the shifted loss average is `0`, and the entry is `100`. -/
theorem C2_rsi_shifted_witness : (TI.calculateRSI [1, 2] 1).getD 1 none = some 100 := by
  have h := (C2_rsi_shifted [1, 2] 1 (by norm_num)).2.2 1 (by norm_num) (by norm_num)
  rw [h]
  with_unfolding_all decide

/-! ## Claim C4 -/

theorem filterMap_id_length_add_countP (l : List (Option ℚ)) :
    (l.filterMap id).length + (l.countP fun x => x.isNone) = l.length := by
  induction l with
  | nil => rfl
  | cons a l ih =>
    cases a <;> simp [List.filterMap_cons, List.countP_cons] <;> omega

theorem getD_macd (prices : List ℚ) {i : ℕ} (h : i < prices.length) :
    (TI.calculateMACD prices).1.getD i none =
      ((TI.calculateEMA prices 12).getD i none).bind fun a =>
        ((TI.calculateEMA prices 26).getD i none).map fun b => a - b := by
  simp only [TI.calculateMACD]
  exact getD_map_range _ h none

/-- C4: for every price list, the MACD line of `calculateMACD` in
TechnicalIndicators.tsx equals the 12-period EMA minus the 26-period EMA at every
index where both are defined (that is, for `i ≥ 25`) and is `NaN` otherwise, and the
signal list equals the 9-period EMA of the defined MACD entries left-padded with one
`NaN` per undefined MACD entry, giving it the MACD line's length. -/
theorem C4_macd (prices : List ℚ) :
    (TI.calculateMACD prices).1.length = prices.length ∧
    (∀ i : ℕ, i < prices.length →
      (25 ≤ i → (TI.calculateMACD prices).1.getD i none =
        some (Spec.specEMAAt prices 12 i - Spec.specEMAAt prices 26 i)) ∧
      (i < 25 → (TI.calculateMACD prices).1.getD i none = none)) ∧
    (TI.calculateMACD prices).2 =
      List.replicate ((TI.calculateMACD prices).1.countP fun x => x.isNone) none ++
        TI.calculateEMA ((TI.calculateMACD prices).1.filterMap id) 9 := by
  refine ⟨length_macd_fst prices, ?_, ?_⟩
  · intro i hlt
    constructor
    · intro h25
      have h12 : 12 ≤ prices.length := by omega
      have h26 : 26 ≤ prices.length := by omega
      rw [getD_macd prices hlt]
      rw [getD_calculateEMA prices 12 hlt,
        emaAt_eq_spec prices 12 (by norm_num) h12 i (by omega)]
      rw [getD_calculateEMA prices 26 hlt,
        emaAt_eq_spec prices 26 (by norm_num) h26 i (by omega)]
      simp only [Option.some_bind, Option.map_some']
    · intro h25
      rw [getD_macd prices hlt]
      rcases Nat.lt_or_ge i 11 with h11 | h11
      · rw [getD_calculateEMA prices 12 hlt, emaAt_none prices 12 i (by omega)]
        simp
      · have h12 : 12 ≤ prices.length := by omega
        rw [getD_calculateEMA prices 12 hlt,
          emaAt_eq_spec prices 12 (by norm_num) h12 i (by omega)]
        rw [getD_calculateEMA prices 26 hlt, emaAt_none prices 26 i (by omega)]
        simp
  · have hc := filterMap_id_length_add_countP (TI.calculateMACD prices).1
    simp only [TI.calculateMACD] at hc ⊢
    congr 1
    congr 1
    rw [length_calculateEMA]
    omega

/-- Witness for C4 at a concrete input: on a constant series of 26 ones, the MACD
entry at index 25 is defined and equals `0`. -/
theorem C4_macd_witness :
    (TI.calculateMACD (List.replicate 26 1)).1.getD 25 none = some 0 := by
  have h := ((C4_macd (List.replicate 26 1)).2.1 25
    (by rw [List.length_replicate]; norm_num)).1 (by norm_num)
  rw [h]
  with_unfolding_all decide

/-! ## Claim C5 -/

theorem getD_calculateSMA (prices : List ℚ) (p : ℕ) {i : ℕ} (h : i < prices.length) :
    (TI.calculateSMA prices p).getD i none =
      if (i : ℤ) < (p : ℤ) - 1 then none
      else some (((prices.drop (i + 1 - p)).take p).sum / (p : ℚ)) := by
  rw [TI.calculateSMA]
  exact getD_map_range _ h none

theorem bollinger_middle_eq (sqrtFn : ℚ → ℚ) (prices : List ℚ) (p : ℕ) (w : ℚ) :
    (TI.calculateBollingerBands sqrtFn prices p w).middle = TI.calculateSMA prices p := rfl

theorem getD_bollinger_upper (sqrtFn : ℚ → ℚ) (prices : List ℚ) (p : ℕ) (w : ℚ)
    {i : ℕ} (h : i < prices.length) :
    (TI.calculateBollingerBands sqrtFn prices p w).upper.getD i none =
      if (i : ℤ) < (p : ℤ) - 1 then none
      else ((TI.calculateSMA prices p).getD i none).map fun mean =>
        mean + sqrtFn (((prices.drop (i + 1 - p)).take p).foldl
          (fun s price => s + (price - mean) ^ 2) 0 / (p : ℚ)) * w := by
  simp only [TI.calculateBollingerBands]
  exact getD_map_range _ h none

theorem getD_bollinger_lower (sqrtFn : ℚ → ℚ) (prices : List ℚ) (p : ℕ) (w : ℚ)
    {i : ℕ} (h : i < prices.length) :
    (TI.calculateBollingerBands sqrtFn prices p w).lower.getD i none =
      if (i : ℤ) < (p : ℤ) - 1 then none
      else ((TI.calculateSMA prices p).getD i none).map fun mean =>
        mean - sqrtFn (((prices.drop (i + 1 - p)).take p).foldl
          (fun s price => s + (price - mean) ^ 2) 0 / (p : ℚ)) * w := by
  simp only [TI.calculateBollingerBands]
  exact getD_map_range _ h none

/-- C5: for every price list, period `p ≥ 1` and width `w`,
`calculateBollingerBands` in TechnicalIndicators.tsx returns middle equal to the
`p`-period SMA (the mean of the `p` prices ending at each index `i ≥ p - 1`, `NaN`
before), and upper and lower equal at each such index to `middle[i]` plus/minus `w`
times the standard deviation of that window of `p` prices about that mean with
denominator `p` (`Math.sqrt` abstracted as `sqrtFn`), with `NaN` at indices
`i < p - 1`. -/
theorem C5_bollinger (sqrtFn : ℚ → ℚ) (prices : List ℚ) (p : ℕ) (w : ℚ) (hp : 1 ≤ p) :
    (TI.calculateBollingerBands sqrtFn prices p w).middle = TI.calculateSMA prices p ∧
    (∀ i : ℕ, i + 1 < p →
      (TI.calculateBollingerBands sqrtFn prices p w).middle.getD i none = none ∧
      (TI.calculateBollingerBands sqrtFn prices p w).upper.getD i none = none ∧
      (TI.calculateBollingerBands sqrtFn prices p w).lower.getD i none = none) ∧
    (∀ i : ℕ, p - 1 ≤ i → i < prices.length →
      (TI.calculateBollingerBands sqrtFn prices p w).middle.getD i none =
        some (Spec.windowMean prices p i) ∧
      (TI.calculateBollingerBands sqrtFn prices p w).upper.getD i none =
        some (Spec.windowMean prices p i +
          w * sqrtFn (Spec.windowVariance prices p i (Spec.windowMean prices p i))) ∧
      (TI.calculateBollingerBands sqrtFn prices p w).lower.getD i none =
        some (Spec.windowMean prices p i -
          w * sqrtFn (Spec.windowVariance prices p i (Spec.windowMean prices p i)))) := by
  refine ⟨bollinger_middle_eq sqrtFn prices p w, ?_, ?_⟩
  · intro i hip
    rcases Nat.lt_or_ge i prices.length with hlt | hge
    · refine ⟨?_, ?_, ?_⟩
      · rw [bollinger_middle_eq, getD_calculateSMA prices p hlt, if_pos (by omega)]
      · rw [getD_bollinger_upper sqrtFn prices p w hlt, if_pos (by omega)]
      · rw [getD_bollinger_lower sqrtFn prices p w hlt, if_pos (by omega)]
    · refine ⟨?_, ?_, ?_⟩ <;>
        · apply List.getD_eq_default
          simp [TI.calculateBollingerBands, TI.calculateSMA]
          omega
  · intro i hpi hilen
    have hwin := drop_take_eq_map_range prices (i + 1 - p) p (by omega)
    have hmean : ((prices.drop (i + 1 - p)).take p).sum / (p : ℚ) =
        Spec.windowMean prices p i := by
      rw [hwin]; rfl
    have hvar : ((prices.drop (i + 1 - p)).take p).foldl
        (fun s price => s + (price - Spec.windowMean prices p i) ^ 2) 0 / (p : ℚ) =
        Spec.windowVariance prices p i (Spec.windowMean prices p i) := by
      rw [foldl_add_map (fun price => (price - Spec.windowMean prices p i) ^ 2)
        ((prices.drop (i + 1 - p)).take p) 0, zero_add, hwin, List.map_map]
      rfl
    refine ⟨?_, ?_, ?_⟩
    · rw [bollinger_middle_eq, getD_calculateSMA prices p hilen, if_neg (by omega), hmean]
    · rw [getD_bollinger_upper sqrtFn prices p w hilen, if_neg (by omega),
        getD_calculateSMA prices p hilen, if_neg (by omega)]
      simp only [Option.map_some']
      rw [hmean, hvar, mul_comm (sqrtFn _) w]
    · rw [getD_bollinger_lower sqrtFn prices p w hilen, if_neg (by omega),
        getD_calculateSMA prices p hilen, if_neg (by omega)]
      simp only [Option.map_some']
      rw [hmean, hvar, mul_comm (sqrtFn _) w]

/-- Witness for C5 at a concrete input: with period 1 and width 2 on the single
price `[3]`, the window variance is `0`, so with the identity in place of
`Math.sqrt` all three bands at index 0 are `3`. -/
theorem C5_bollinger_witness :
    (TI.calculateBollingerBands id [3] 1 2).upper.getD 0 none = some 3 := by
  have h := ((C5_bollinger id [3] 1 2 (by norm_num)).2.2 0 (by norm_num) (by norm_num)).2.1
  rw [h]
  with_unfolding_all decide

end StockDashboard
